import Mathlib

/-!
Shallow embedding of the metrics sampling-and-smoothing core of the
`python_playground` system monitor (`play.py`):

* `TimeSeriesChart.append` — the rolling per-series point buffers
  (`play.py` lines 631-647);
* `MetricCard.update_percent` / `MetricCard.update_value` — card updates,
  including the `max(ref_max, 1e-6)` divisor floor (lines 746-786);
* `SystemMonitor.on_timer` — one sampling tick: elapsed-time measurement,
  pause handling, network/disk rate computation, decaying reference maxima
  (lines 1460-1541);
* `SystemMonitor.on_unit_changed` — unit divisor switching and baseline
  reset (lines 1214-1243);
* `SystemMonitor.refresh_processes` — CPU-priming first pass and the
  filter/affinity bucketing of processes (lines 1314-1363);
* `ProcessCollector` — the background process collector; its source module
  is not in the repository snapshot (only its unit tests are), so it is
  modelled from the specification.

Machine floats are idealised as real numbers; byte counters are naturals;
Python exceptions at a read site are `Option`/`none`.
-/

/-- One raw read of the network byte counters (`psutil.net_io_counters()`). -/
structure NetCounters where
  bytes_sent : ℕ
  bytes_recv : ℕ
  deriving Repr, DecidableEq

/-- One raw read of the disk byte counters (`psutil.disk_io_counters()`). -/
structure DiskCounters where
  read_bytes : ℕ
  write_bytes : ℕ
  deriving Repr, DecidableEq

/-! ### TimeSeriesChart (play.py 575-658) -/

/-- A `TimeSeriesChart`: shared x counter `self._x`, per-series point
buffers `self._buffers`, capacity `self.max_points`.  The value type is a
parameter (the source stores Python floats). -/
structure TimeSeriesChart (α : Type) where
  max_points : ℕ
  x : ℕ
  buffers : List (List (ℕ × α))
  deriving Repr, DecidableEq

/-- The trim step of `TimeSeriesChart.append` (lines 640-642):
`if len(buf) > self.max_points: del buf[: len(buf) - self.max_points]`. -/
def bufferTrim {α : Type} (max_points : ℕ) (buf : List (ℕ × α)) : List (ℕ × α) :=
  if buf.length > max_points then buf.drop (buf.length - max_points) else buf

/-- One buffer update inside `TimeSeriesChart.append` (lines 638-642):
append `(x, v)` at the back, then trim from the front to capacity. -/
def bufferAppend {α : Type} (max_points x : ℕ) (v : α) (buf : List (ℕ × α)) :
    List (ℕ × α) :=
  bufferTrim max_points (buf ++ [(x, v)])

/-- `TimeSeriesChart.append(values)` (lines 631-644): increment `self._x`,
then update the first `n = min(len(values), len(self.series))` buffers;
buffers beyond `n` are left untouched. -/
def TimeSeriesChart.append {α : Type} (c : TimeSeriesChart α) (values : List α) :
    TimeSeriesChart α :=
  let x := c.x + 1
  let n := min values.length c.buffers.length
  { c with
    x := x
    buffers :=
      List.zipWith (fun v buf => bufferAppend c.max_points x v buf) values c.buffers
        ++ c.buffers.drop n }

/-- A freshly constructed chart with a single series: `self._x = 0` and one
empty point buffer. -/
def singleChart (α : Type) (max_points : ℕ) : TimeSeriesChart α :=
  { max_points := max_points, x := 0, buffers := [[]] }

/-- Feed a sequence of scalar samples to a chart, one `append([v])` per tick. -/
def appendAll {α : Type} (c : TimeSeriesChart α) (vs : List α) : TimeSeriesChart α :=
  vs.foldl (fun c v => TimeSeriesChart.append c [v]) c

/-- The full (untrimmed) history of points a single-series chart would have
produced for the samples `vs`: x indices `1, 2, ...` paired with the values. -/
def fullHist {α : Type} (vs : List α) : List (ℕ × α) :=
  vs.enum.map (fun p => (p.1 + 1, p.2))

/-! ### MetricCard (play.py 662-786) -/

/-- The divisor `MetricCard.update_value` uses when a reference max is
supplied (line 782): `m = max(ref_max, 1e-6)`. -/
noncomputable def updateValueDivisor (ref_max : ℝ) : ℝ :=
  max ref_max (1 / 1000000)

/-- The progress-bar value of `MetricCard.update_value` (line 783):
`int(round(max(0.0, min(100.0, (v / m) * 100.0)))) if m > 0 else 0`. -/
noncomputable def updateValueBar (v m : ℝ) : ℤ :=
  if 0 < m then round (max 0 (min 100 (v / m * 100))) else 0

/-- The visible state of a `MetricCard`: the numeric value shown in the
label and the progress-bar percentage. -/
structure CardState where
  value : ℝ
  bar : ℤ

/-- `MetricCard.update_value(v, ref_max=...)` with a non-percent card
(lines 769-786): the label shows `v`, the bar shows `v` against
`max(ref_max, 1e-6)`. -/
noncomputable def cardUpdateValueRef (v ref_max : ℝ) : CardState :=
  let m := updateValueDivisor ref_max
  { value := v, bar := updateValueBar v m }

/-- `MetricCard.update_percent(pct)` (lines 746-767): clamp to `[0, 100]`,
show the clamped value, bar is the rounded clamp. -/
noncomputable def cardUpdatePercent (pct : ℝ) : CardState :=
  let pct_f := max 0 (min 100 pct)
  { value := pct_f, bar := round pct_f }

/-! ### SystemMonitor tick state and `on_timer` (play.py 1460-1541) -/

/-- The sampling-relevant state of `SystemMonitor`.  UI-only attributes
(chart titles, combo boxes, tab index, GPU/process refresh accumulators)
are outside the sampling core and omitted. -/
structure MonState where
  paused : Bool
  elapsedStart : ℕ
  unit_mode : String
  bytes_per_unit : ℚ
  last_net : NetCounters
  last_disk : Option DiskCounters
  net_dyn_up : ℝ
  net_dyn_down : ℝ
  disk_dyn_read : ℝ
  disk_dyn_write : ℝ
  card_cpu : CardState
  card_mem : CardState
  card_net_up : CardState
  card_net_down : CardState
  card_disk_read : CardState
  card_disk_write : CardState

/-- The inputs one `on_timer` tick reads from the outside world: the
monotonic clock (ms) behind `QElapsedTimer`, and the OS counter reads.
`disk = none` models `psutil.disk_io_counters()` raising (lines 1524-1527). -/
structure TickInput where
  now : ℕ
  cpu : ℝ
  mem_percent : ℝ
  net : NetCounters
  disk : Option DiskCounters

/-- `dt_ms = max(1, self._elapsed.restart())` (line 1467): the elapsed
milliseconds since the previous restart, floored to 1. -/
def tickDtMs (st : MonState) (now : ℕ) : ℕ :=
  max 1 (now - st.elapsedStart)

/-- `dt = dt_ms / 1000.0` (line 1468). -/
noncomputable def tickDtSec (st : MonState) (now : ℕ) : ℝ :=
  (tickDtMs st now : ℝ) / 1000

/-- The rate computation of lines 1510-1511 and 1529-1530:
`max(0.0, (cur - prev) / dt) / self._bytes_per_unit`. -/
noncomputable def byteRate (prev cur : ℕ) (dt : ℝ) (bytes_per_unit : ℚ) : ℝ :=
  max 0 (((cur : ℝ) - (prev : ℝ)) / dt) / (bytes_per_unit : ℝ)

/-- Lines 1528-1533 for the read counter: the disk read rate is computed
only when both the current read (`dio`) and the stored baseline
(`self._last_disk`) are present; otherwise it is `0.0`. -/
noncomputable def diskReadRate (dio last : Option DiskCounters) (dt : ℝ)
    (bytes_per_unit : ℚ) : ℝ :=
  match dio, last with
  | some d, some l => byteRate l.read_bytes d.read_bytes dt bytes_per_unit
  | _, _ => 0

/-- Lines 1528-1533 for the write counter. -/
noncomputable def diskWriteRate (dio last : Option DiskCounters) (dt : ℝ)
    (bytes_per_unit : ℚ) : ℝ :=
  match dio, last with
  | some d, some l => byteRate l.write_bytes d.write_bytes dt bytes_per_unit
  | _, _ => 0

/-- One `SystemMonitor.on_timer` tick (lines 1460-1541, sampling core).
While paused, only the elapsed clock is restarted (lines 1462-1464).
Otherwise: CPU and memory cards update from their reads; network and disk
rates are `max(0, delta/dt) / bytes_per_unit`; the four decaying reference
maxima update with `alpha = exp(-dt/10)`; the previous counter snapshots
are replaced.  A failed disk read yields rates `0.0` and replaces the disk
baseline with `None`. -/
noncomputable def onTimer (st : MonState) (inp : TickInput) : MonState :=
  if st.paused then
    { st with elapsedStart := inp.now }
  else
    let dt := tickDtSec st inp.now
    let up_mbs := byteRate st.last_net.bytes_sent inp.net.bytes_sent dt st.bytes_per_unit
    let down_mbs := byteRate st.last_net.bytes_recv inp.net.bytes_recv dt st.bytes_per_unit
    let alpha := Real.exp (-dt / 10)
    let ndu := max up_mbs (st.net_dyn_up * alpha)
    let ndd := max down_mbs (st.net_dyn_down * alpha)
    let read_mbs := diskReadRate inp.disk st.last_disk dt st.bytes_per_unit
    let write_mbs := diskWriteRate inp.disk st.last_disk dt st.bytes_per_unit
    let ddr := max read_mbs (st.disk_dyn_read * alpha)
    let ddw := max write_mbs (st.disk_dyn_write * alpha)
    { st with
      elapsedStart := inp.now
      last_net := inp.net
      last_disk := inp.disk
      net_dyn_up := ndu
      net_dyn_down := ndd
      disk_dyn_read := ddr
      disk_dyn_write := ddw
      card_cpu := cardUpdatePercent inp.cpu
      card_mem := cardUpdatePercent inp.mem_percent
      card_net_up := cardUpdateValueRef up_mbs ndu
      card_net_down := cardUpdateValueRef down_mbs ndd
      card_disk_read := cardUpdateValueRef read_mbs ddr
      card_disk_write := cardUpdateValueRef write_mbs ddw }

/-! ### `on_unit_changed` (play.py 1214-1243) -/

/-- The dictionary `{"MB/s": 1_000_000, "MiB/s": 1024**2}` of line 1215,
as a lookup. -/
def unitMapping (mode : String) : Option ℚ :=
  if mode = "MB/s" then some 1000000
  else if mode = "MiB/s" then some (1024 ^ 2)
  else none

/-- `SystemMonitor.on_unit_changed(mode)` (lines 1214-1243) restricted to
the sampling-relevant state: a mode outside the mapping returns at once;
an accepted mode stores the mode and its divisor and resets the four
dynamic baselines to `1.0`.  (Label/title mirroring on lines 1221-1238 is
display-only and outside `MonState`.) -/
def onUnitChanged (mode : String) (st : MonState) : MonState :=
  match unitMapping mode with
  | none => st
  | some d =>
      { st with
        unit_mode := mode
        bytes_per_unit := d
        net_dyn_up := 1
        net_dyn_down := 1
        disk_dyn_read := 1
        disk_dyn_write := 1 }

/-! ### `refresh_processes` (play.py 1314-1363) -/

/-- One record from `psutil.process_iter(['pid','name','memory_percent',
'num_threads'])` plus the per-process accessors the loop calls.
`affinity = none` models `p.cpu_affinity()` raising; `cpuPrimed` tracks
whether `p.cpu_percent(None)` has been called on this process. -/
structure ProcRec where
  pid : ℕ
  name : List Char
  cpu : ℚ
  mem : ℚ
  threads : ℕ
  affinity : Option (List ℕ)
  cpuPrimed : Bool
  deriving Repr, DecidableEq

/-- The filter test of lines 1347-1349: the (already lowercased) filter is
a substring of `name.lower()` or of `str(pid)`. -/
def matchesFilter (fil : List Char) (p : ProcRec) : Bool :=
  decide (fil <:+: p.name.map Char.toLower) || decide (fil <:+: Nat.toDigits 10 p.pid)

/-- The accumulator of the collection loop: `core_processes` (one bucket
per core id), `all_cores_processes`, and the summary counters. -/
structure Buckets where
  core_processes : List (List ProcRec)
  all_cores_processes : List ProcRec
  proc_count : ℕ
  total_threads : ℕ
  deriving Repr, DecidableEq

/-- The affinity bucketing of lines 1351-1363, acting on the pair
(per-core buckets, all-cores list): a process pinned to a strict nonempty
subset of cores goes into each of its (in-range) cores' buckets; otherwise
— including when `cpu_affinity()` raises — it goes to the all-cores list. -/
def bucketAssign (n_cores : ℕ) (p : ProcRec)
    (cps : List (List ProcRec)) (acp : List ProcRec) :
    List (List ProcRec) × List ProcRec :=
  match p.affinity with
  | some aff =>
      if aff ≠ [] ∧ aff.length < n_cores then
        (aff.foldl
          (fun cps core_id =>
            if core_id < n_cores then cps.set core_id (cps.getD core_id [] ++ [p])
            else cps)
          cps, acp)
      else (cps, acp ++ [p])
  | none => (cps, acp ++ [p])

/-- One iteration of the `for p in psutil.process_iter(...)` loop
(lines 1334-1363): bump the summary counters, then either skip the process
(nonempty filter, no match — line 1349's `continue`) or bucket it. -/
def bucketOne (n_cores : ℕ) (fil : List Char) (b : Buckets) (p : ProcRec) : Buckets :=
  if fil ≠ [] ∧ matchesFilter fil p = false then
    { b with
      proc_count := b.proc_count + 1
      total_threads := b.total_threads + p.threads }
  else
    { b with
      proc_count := b.proc_count + 1
      total_threads := b.total_threads + p.threads
      core_processes := (bucketAssign n_cores p b.core_processes b.all_cores_processes).1
      all_cores_processes :=
        (bucketAssign n_cores p b.core_processes b.all_cores_processes).2 }

/-- The whole collection loop of `refresh_processes` (lines 1326-1363),
starting from `core_processes = {i: [] for i in range(n_cores)}`,
`all_cores_processes = []` and zero counters. -/
def collectBuckets (n_cores : ℕ) (fil : List Char) (procs : List ProcRec) : Buckets :=
  procs.foldl (bucketOne n_cores fil)
    { core_processes := List.replicate n_cores []
      all_cores_processes := []
      proc_count := 0
      total_threads := 0 }

/-- Sort a bucket by CPU usage, descending (line 1404). -/
def sortByCpuDesc (l : List ProcRec) : List ProcRec :=
  l.mergeSort (fun p q => q.cpu ≤ p.cpu)

/-- The monitor state `refresh_processes` touches: the priming flag
`self._procs_primed`, the process-tree contents (per-core top-10 lists,
CPU-sorted — lines 1400-1425), and the numbers shown in the summary label
(line 1446). -/
structure ProcUIState where
  procsPrimed : Bool
  tree : List (List ProcRec)
  summary : ℕ × ℕ
  deriving Repr, DecidableEq

/-- `SystemMonitor.refresh_processes` (lines 1314-1446) restricted to its
data effects.  First call (`_procs_primed` unset, lines 1316-1324): call
`p.cpu_percent(None)` on every live process, set the flag, return —
nothing else changes.  Later calls: run the collection loop and rebuild
the tree and summary.  Returns the new UI state together with the process
world (whose records carry the priming side effect). -/
def refreshProcesses (st : ProcUIState) (fil : List Char) (n_cores : ℕ)
    (procs : List ProcRec) : ProcUIState × List ProcRec :=
  if st.procsPrimed = false then
    ({ st with procsPrimed := true },
      procs.map (fun p => { p with cpuPrimed := true }))
  else
    let b := collectBuckets n_cores fil procs
    ({ st with
        tree := b.core_processes.map (fun l => (sortByCpuDesc l).take 10)
        summary := (b.proc_count, b.total_threads) },
      procs)

/-! ### ProcessCollector -/

/-- Modelled from the spec: the module `system_monitor/core/process_collector.py`
is absent from the repository snapshot (only `tests/system_monitor/core/
test_process_collector.py` is present).  Per spec §4.5/§5 and the tests:
`_collecting` and `_shutdown` flags, a single-slot result mailbox
(`Queue(maxsize=1)` with replace-on-put), and a count of worker
submissions to the executor. -/
structure ProcessCollector (R : Type) where
  collecting : Bool
  isShutdown : Bool
  mailbox : Option R
  workerStarts : ℕ

/-- Modelled from the spec: `collect_async` — if already collecting or
already shut down, return without effect; otherwise submit one worker and
mark state Collecting. -/
def collect_async {R : Type} (c : ProcessCollector R) : ProcessCollector R :=
  if c.isShutdown || c.collecting then c
  else { c with collecting := true, workerStarts := c.workerStarts + 1 }

/-- Modelled from the spec: `_on_collection_complete` — state returns to
Idle and the result is placed in the single-slot mailbox, overwriting any
unconsumed previous result. -/
def onCollectionComplete {R : Type} (c : ProcessCollector R) (result : R) :
    ProcessCollector R :=
  { c with collecting := false, mailbox := some result }

/-- Modelled from the spec: `get_result` — non-blocking; return and clear
the mailbox, or `none` when nothing is pending. -/
def get_result {R : Type} (c : ProcessCollector R) :
    Option R × ProcessCollector R :=
  (c.mailbox, { c with mailbox := none })

/-- Modelled from the spec: `shutdown` — idempotent, permanently disables
the collector. -/
def shutdownCollector {R : Type} (c : ProcessCollector R) : ProcessCollector R :=
  { c with isShutdown := true }

/-- A concrete monitor state used to instantiate hypothesis-bearing
theorems: the post-construction state of `SystemMonitor.__init__`
(lines 1067-1125) with zeroed counters and idle cards. -/
noncomputable def exampleState : MonState :=
  { paused := false
    elapsedStart := 0
    unit_mode := "MiB/s"
    bytes_per_unit := 1024 ^ 2
    last_net := { bytes_sent := 0, bytes_recv := 0 }
    last_disk := some { read_bytes := 0, write_bytes := 0 }
    net_dyn_up := 1
    net_dyn_down := 1
    disk_dyn_read := 1
    disk_dyn_write := 1
    card_cpu := { value := 0, bar := 0 }
    card_mem := { value := 0, bar := 0 }
    card_net_up := { value := 0, bar := 0 }
    card_net_down := { value := 0, bar := 0 }
    card_disk_read := { value := 0, bar := 0 }
    card_disk_write := { value := 0, bar := 0 } }

/-- A concrete tick input for witnesses: clock at 1000 ms, quiet counters. -/
noncomputable def exampleInput : TickInput :=
  { now := 1000
    cpu := 50
    mem_percent := 40
    net := { bytes_sent := 2000000, bytes_recv := 1000000 }
    disk := some { read_bytes := 500000, write_bytes := 300000 } }

/-- A concrete tick input with quiet counters after a long (400 s) gap,
used to exhibit deep decay of the reference maxima. -/
noncomputable def quietLongInput : TickInput :=
  { now := 400000
    cpu := 0
    mem_percent := 0
    net := { bytes_sent := 0, bytes_recv := 0 }
    disk := none }

/-! ## Helper lemmas: rolling buffer -/

theorem fullHist_length {α : Type} (vs : List α) : (fullHist vs).length = vs.length := by
  simp [fullHist, List.enum_length]

theorem fullHist_concat {α : Type} (vs : List α) (v : α) :
    fullHist (vs ++ [v]) = fullHist vs ++ [(vs.length + 1, v)] := by
  simp [fullHist, List.enum_append, List.enumFrom_cons]

theorem bufferAppend_drop {α : Type} (cap n x : ℕ) (v : α) (E : List (ℕ × α))
    (hE : E.length = n) :
    bufferAppend cap x v (E.drop (n - cap)) = (E ++ [(x, v)]).drop (n + 1 - cap) := by
  have hd : E.drop (n - cap) ++ [(x, v)] = (E ++ [(x, v)]).drop (n - cap) :=
    (List.drop_append_of_le_length (by omega)).symm
  have hlen : (E.drop (n - cap) ++ [(x, v)]).length = n - (n - cap) + 1 := by
    simp [hE]
  unfold bufferAppend bufferTrim
  rw [hlen, hd]
  split
  · rw [List.drop_drop]
    congr 1
    omega
  · congr 1
    omega

theorem appendAll_single_chart {α : Type} (cap : ℕ) (vs : List α) :
    (appendAll (singleChart α cap) vs).x = vs.length ∧
    (appendAll (singleChart α cap) vs).max_points = cap ∧
    (appendAll (singleChart α cap) vs).buffers
      = [(fullHist vs).drop (vs.length - cap)] := by
  induction vs using List.reverseRecOn with
  | nil => simp [appendAll, singleChart, fullHist]
  | append_singleton vs v ih =>
      obtain ⟨hx, hcap, hbuf⟩ := ih
      have hstep : appendAll (singleChart α cap) (vs ++ [v])
          = TimeSeriesChart.append (appendAll (singleChart α cap) vs) [v] := by
        simp [appendAll, List.foldl_append]
      refine ⟨?_, ?_, ?_⟩
      · rw [hstep]
        simp [TimeSeriesChart.append, hx]
      · rw [hstep]
        simp [TimeSeriesChart.append, hcap]
      · rw [hstep]
        simp only [TimeSeriesChart.append, hbuf, hcap, hx]
        rw [fullHist_concat]
        simp only [List.zipWith, List.length_append, List.length_singleton]
        rw [bufferAppend_drop cap vs.length (vs.length + 1) v (fullHist vs)
          (fullHist_length vs)]
        simp

theorem fullHist_pairwise {α : Type} (vs : List α) :
    List.Pairwise (fun p q : ℕ × α => p.1 < q.1) (fullHist vs) := by
  have h1 : List.map Prod.fst (fullHist vs) = List.range' 1 vs.length := by
    show List.map Prod.fst (vs.enum.map (fun p => (p.1 + 1, p.2)))
        = List.range' 1 vs.length
    rw [List.map_map]
    have h2 : (Prod.fst ∘ fun p : ℕ × α => (p.1 + 1, p.2))
        = ((fun x => 1 + x) ∘ Prod.fst) := by
      funext p
      simp [Nat.add_comm]
    rw [h2, ← List.map_map, List.enum_map_fst, List.range'_eq_map_range]
  have h3 : List.Pairwise (· < ·) (List.map Prod.fst (fullHist vs)) := by
    rw [h1]
    exact List.pairwise_lt_range' 1 vs.length 1 Nat.one_pos
  rw [List.pairwise_map] at h3
  exact h3

/-- C2: each per-series buffer of a `TimeSeriesChart` with capacity
`max_points` holds at most `max_points` points; overflow evicts only from
the front, so after appending `n` values the buffer is exactly the last
`min n max_points` of the full history, in insertion order with strictly
increasing x indices; concretely, with capacity 3 appending 1,2,3,4,5
leaves the values `[3, 4, 5]`. -/
theorem C2_rolling_buffer_bounded (cap : ℕ) (vs : List ℚ) :
    (∀ buf ∈ (appendAll (singleChart ℚ cap) vs).buffers, buf.length ≤ cap) ∧
    (appendAll (singleChart ℚ cap) vs).buffers
      = [(fullHist vs).drop (vs.length - cap)] ∧
    (∀ buf ∈ (appendAll (singleChart ℚ cap) vs).buffers,
      List.Pairwise (fun p q : ℕ × ℚ => p.1 < q.1) buf) ∧
    (appendAll (singleChart ℚ 3) [1, 2, 3, 4, 5]).buffers.map
        (fun buf => buf.map Prod.snd) = [[3, 4, 5]] := by
  obtain ⟨hx, hcap, hbuf⟩ := appendAll_single_chart cap vs
  refine ⟨?_, hbuf, ?_, ?_⟩
  · intro buf hb
    rw [hbuf] at hb
    simp only [List.mem_singleton] at hb
    subst hb
    rw [List.length_drop, fullHist_length]
    omega
  · intro buf hb
    rw [hbuf] at hb
    simp only [List.mem_singleton] at hb
    subst hb
    exact List.Pairwise.sublist (List.drop_sublist _ _) (fullHist_pairwise vs)
  · rfl

/-! ## Helper lemmas: the sampling tick -/

theorem onTimer_unpaused (st : MonState) (inp : TickInput) (hp : st.paused = false) :
    onTimer st inp =
      { st with
        elapsedStart := inp.now
        last_net := inp.net
        last_disk := inp.disk
        net_dyn_up :=
          max (byteRate st.last_net.bytes_sent inp.net.bytes_sent
                (tickDtSec st inp.now) st.bytes_per_unit)
            (st.net_dyn_up * Real.exp (-(tickDtSec st inp.now) / 10))
        net_dyn_down :=
          max (byteRate st.last_net.bytes_recv inp.net.bytes_recv
                (tickDtSec st inp.now) st.bytes_per_unit)
            (st.net_dyn_down * Real.exp (-(tickDtSec st inp.now) / 10))
        disk_dyn_read :=
          max (diskReadRate inp.disk st.last_disk (tickDtSec st inp.now)
                st.bytes_per_unit)
            (st.disk_dyn_read * Real.exp (-(tickDtSec st inp.now) / 10))
        disk_dyn_write :=
          max (diskWriteRate inp.disk st.last_disk (tickDtSec st inp.now)
                st.bytes_per_unit)
            (st.disk_dyn_write * Real.exp (-(tickDtSec st inp.now) / 10))
        card_cpu := cardUpdatePercent inp.cpu
        card_mem := cardUpdatePercent inp.mem_percent
        card_net_up :=
          cardUpdateValueRef
            (byteRate st.last_net.bytes_sent inp.net.bytes_sent
              (tickDtSec st inp.now) st.bytes_per_unit)
            (max (byteRate st.last_net.bytes_sent inp.net.bytes_sent
                  (tickDtSec st inp.now) st.bytes_per_unit)
              (st.net_dyn_up * Real.exp (-(tickDtSec st inp.now) / 10)))
        card_net_down :=
          cardUpdateValueRef
            (byteRate st.last_net.bytes_recv inp.net.bytes_recv
              (tickDtSec st inp.now) st.bytes_per_unit)
            (max (byteRate st.last_net.bytes_recv inp.net.bytes_recv
                  (tickDtSec st inp.now) st.bytes_per_unit)
              (st.net_dyn_down * Real.exp (-(tickDtSec st inp.now) / 10)))
        card_disk_read :=
          cardUpdateValueRef
            (diskReadRate inp.disk st.last_disk (tickDtSec st inp.now)
              st.bytes_per_unit)
            (max (diskReadRate inp.disk st.last_disk (tickDtSec st inp.now)
                  st.bytes_per_unit)
              (st.disk_dyn_read * Real.exp (-(tickDtSec st inp.now) / 10)))
        card_disk_write :=
          cardUpdateValueRef
            (diskWriteRate inp.disk st.last_disk (tickDtSec st inp.now)
              st.bytes_per_unit)
            (max (diskWriteRate inp.disk st.last_disk (tickDtSec st inp.now)
                  st.bytes_per_unit)
              (st.disk_dyn_write * Real.exp (-(tickDtSec st inp.now) / 10))) } := by
  simp only [onTimer, hp, Bool.false_eq_true, if_false]

theorem tickDtSec_ge (st : MonState) (now : ℕ) :
    (1 : ℝ) / 1000 ≤ tickDtSec st now := by
  unfold tickDtSec tickDtMs
  have h : (1 : ℝ) ≤ ((max 1 (now - st.elapsedStart) : ℕ) : ℝ) := by
    exact_mod_cast Nat.le_max_left 1 (now - st.elapsedStart)
  linarith

theorem tickDtSec_pos (st : MonState) (now : ℕ) : 0 < tickDtSec st now :=
  lt_of_lt_of_le (by norm_num) (tickDtSec_ge st now)

theorem byteRate_eq_spec (prev cur : ℕ) (dt : ℝ) (div : ℚ) (hdt : 0 < dt) :
    byteRate prev cur dt div
      = max 0 ((cur : ℝ) - (prev : ℝ)) / dt / (div : ℝ) := by
  unfold byteRate
  rw [← max_div_div_right hdt.le 0 (((cur : ℝ) - (prev : ℝ))), zero_div]

theorem byteRate_nonneg (prev cur : ℕ) (dt : ℝ) (div : ℚ) (hdiv : 0 < div) :
    0 ≤ byteRate prev cur dt div := by
  unfold byteRate
  have h0 : (0 : ℝ) ≤ max 0 (((cur : ℝ) - (prev : ℝ)) / dt) := le_max_left _ _
  have hd : (0 : ℝ) < (div : ℝ) := by exact_mod_cast hdiv
  positivity

theorem byteRate_reset (prev cur : ℕ) (dt : ℝ) (div : ℚ) (hdt : 0 < dt)
    (h : cur < prev) : byteRate prev cur dt div = 0 := by
  unfold byteRate
  have hneg : ((cur : ℝ) - (prev : ℝ)) / dt ≤ 0 := by
    apply div_nonpos_of_nonpos_of_nonneg _ hdt.le
    have : (cur : ℝ) < (prev : ℝ) := by exact_mod_cast h
    linarith
  rw [max_eq_left hneg, zero_div]

theorem diskReadRate_none (last : Option DiskCounters) (dt : ℝ) (div : ℚ) :
    diskReadRate none last dt div = 0 := by
  cases last <;> rfl

theorem diskWriteRate_none (last : Option DiskCounters) (dt : ℝ) (div : ℚ) :
    diskWriteRate none last dt div = 0 := by
  cases last <;> rfl

/-- C1: on an unpaused tick, each reported byte rate (network up/down, and
disk read/write when both the current read and the baseline are present)
equals `max(0, cur - prev) / dt / bytes_per_unit` with
`dt = max(1, elapsed_ms) / 1000`; the rate is never negative, `dt` is
bounded below by one millisecond (no division blow-up), a decreased
counter yields rate 0 for that tick, and the current reading becomes the
new baseline. -/
theorem C1_tick_rates (st : MonState) (inp : TickInput)
    (hp : st.paused = false) (hdiv : 0 < st.bytes_per_unit) :
    tickDtSec st inp.now = ((max 1 (inp.now - st.elapsedStart) : ℕ) : ℝ) / 1000 ∧
    (1 : ℝ) / 1000 ≤ tickDtSec st inp.now ∧
    (onTimer st inp).card_net_up.value
      = max 0 ((inp.net.bytes_sent : ℝ) - (st.last_net.bytes_sent : ℝ))
          / tickDtSec st inp.now / (st.bytes_per_unit : ℝ) ∧
    (onTimer st inp).card_net_down.value
      = max 0 ((inp.net.bytes_recv : ℝ) - (st.last_net.bytes_recv : ℝ))
          / tickDtSec st inp.now / (st.bytes_per_unit : ℝ) ∧
    0 ≤ (onTimer st inp).card_net_up.value ∧
    0 ≤ (onTimer st inp).card_net_down.value ∧
    (inp.net.bytes_sent < st.last_net.bytes_sent →
      (onTimer st inp).card_net_up.value = 0) ∧
    (inp.net.bytes_recv < st.last_net.bytes_recv →
      (onTimer st inp).card_net_down.value = 0) ∧
    (onTimer st inp).last_net = inp.net ∧
    (onTimer st inp).last_disk = inp.disk ∧
    (∀ dio lst : DiskCounters, inp.disk = some dio → st.last_disk = some lst →
      (onTimer st inp).card_disk_read.value
        = max 0 ((dio.read_bytes : ℝ) - (lst.read_bytes : ℝ))
            / tickDtSec st inp.now / (st.bytes_per_unit : ℝ) ∧
      (onTimer st inp).card_disk_write.value
        = max 0 ((dio.write_bytes : ℝ) - (lst.write_bytes : ℝ))
            / tickDtSec st inp.now / (st.bytes_per_unit : ℝ) ∧
      0 ≤ (onTimer st inp).card_disk_read.value ∧
      0 ≤ (onTimer st inp).card_disk_write.value ∧
      (dio.read_bytes < lst.read_bytes →
        (onTimer st inp).card_disk_read.value = 0) ∧
      (dio.write_bytes < lst.write_bytes →
        (onTimer st inp).card_disk_write.value = 0)) := by
  rw [onTimer_unpaused st inp hp]
  have hdt := tickDtSec_pos st inp.now
  refine ⟨rfl, tickDtSec_ge st inp.now, ?_, ?_, ?_, ?_, ?_, ?_, rfl, rfl, ?_⟩
  · simp only [cardUpdateValueRef]
    exact byteRate_eq_spec _ _ _ _ hdt
  · simp only [cardUpdateValueRef]
    exact byteRate_eq_spec _ _ _ _ hdt
  · simp only [cardUpdateValueRef]
    exact byteRate_nonneg _ _ _ _ hdiv
  · simp only [cardUpdateValueRef]
    exact byteRate_nonneg _ _ _ _ hdiv
  · intro h
    simp only [cardUpdateValueRef]
    exact byteRate_reset _ _ _ _ hdt h
  · intro h
    simp only [cardUpdateValueRef]
    exact byteRate_reset _ _ _ _ hdt h
  · intro dio lst h1 h2
    simp only [cardUpdateValueRef, h1, h2, diskReadRate, diskWriteRate]
    exact ⟨byteRate_eq_spec _ _ _ _ hdt, byteRate_eq_spec _ _ _ _ hdt,
      byteRate_nonneg _ _ _ _ hdiv, byteRate_nonneg _ _ _ _ hdiv,
      fun h => byteRate_reset _ _ _ _ hdt h, fun h => byteRate_reset _ _ _ _ hdt h⟩

theorem C1_tick_rates_witness :
    0 ≤ (onTimer exampleState exampleInput).card_net_up.value :=
  (C1_tick_rates exampleState exampleInput rfl
    (by norm_num [exampleState])).2.2.2.2.1

theorem C2_rolling_buffer_bounded_witness :
    (appendAll (singleChart ℚ 3) [1, 2, 3, 4, 5]).buffers.map
        (fun buf => buf.map Prod.snd) = [[3, 4, 5]] :=
  (C2_rolling_buffer_bounded 3 [1, 2, 3, 4, 5]).2.2.2

/-- C3: on an unpaused tick, each of the four decaying reference maxima
(net up, net down, disk read, disk write) becomes
`max(v, old_max * exp(-dt/10))` where `v` is the just-observed rate and
the time constant is 10 seconds; the updated maximum is therefore never
below the just-observed value. -/
theorem C3_decaying_reference_max (st : MonState) (inp : TickInput)
    (hp : st.paused = false) :
    ((onTimer st inp).net_dyn_up
      = max (onTimer st inp).card_net_up.value
          (st.net_dyn_up * Real.exp (-(tickDtSec st inp.now) / 10)) ∧
     (onTimer st inp).net_dyn_down
      = max (onTimer st inp).card_net_down.value
          (st.net_dyn_down * Real.exp (-(tickDtSec st inp.now) / 10)) ∧
     (onTimer st inp).disk_dyn_read
      = max (onTimer st inp).card_disk_read.value
          (st.disk_dyn_read * Real.exp (-(tickDtSec st inp.now) / 10)) ∧
     (onTimer st inp).disk_dyn_write
      = max (onTimer st inp).card_disk_write.value
          (st.disk_dyn_write * Real.exp (-(tickDtSec st inp.now) / 10))) ∧
    ((onTimer st inp).card_net_up.value ≤ (onTimer st inp).net_dyn_up ∧
     (onTimer st inp).card_net_down.value ≤ (onTimer st inp).net_dyn_down ∧
     (onTimer st inp).card_disk_read.value ≤ (onTimer st inp).disk_dyn_read ∧
     (onTimer st inp).card_disk_write.value ≤ (onTimer st inp).disk_dyn_write) := by
  rw [onTimer_unpaused st inp hp]
  simp [cardUpdateValueRef, le_max_left]

theorem C3_decaying_reference_max_witness :
    (onTimer exampleState exampleInput).card_net_up.value
      ≤ (onTimer exampleState exampleInput).net_dyn_up :=
  (C3_decaying_reference_max exampleState exampleInput rfl).2.1

/-- C5: a tick on which the disk counter read raises (while the CPU read
succeeds) is not aborted: both disk rates are the neutral default 0.0 for
that tick, the disk baseline becomes `None`, and the CPU, memory and
network channels update exactly as they would have with a successful disk
read. -/
theorem C5_disk_failure_isolation (st : MonState) (inp : TickInput)
    (d : DiskCounters) (hp : st.paused = false) (hd : inp.disk = none) :
    (onTimer st inp).card_disk_read.value = 0 ∧
    (onTimer st inp).card_disk_write.value = 0 ∧
    (onTimer st inp).last_disk = none ∧
    (onTimer st inp).card_cpu = cardUpdatePercent inp.cpu ∧
    (onTimer st inp).card_mem = cardUpdatePercent inp.mem_percent ∧
    (onTimer st inp).last_net = inp.net ∧
    (onTimer st inp).card_cpu = (onTimer st { inp with disk := some d }).card_cpu ∧
    (onTimer st inp).card_mem = (onTimer st { inp with disk := some d }).card_mem ∧
    (onTimer st inp).card_net_up
      = (onTimer st { inp with disk := some d }).card_net_up ∧
    (onTimer st inp).card_net_down
      = (onTimer st { inp with disk := some d }).card_net_down ∧
    (onTimer st inp).net_dyn_up
      = (onTimer st { inp with disk := some d }).net_dyn_up ∧
    (onTimer st inp).net_dyn_down
      = (onTimer st { inp with disk := some d }).net_dyn_down := by
  rw [onTimer_unpaused st inp hp, onTimer_unpaused st { inp with disk := some d } hp]
  simp [hd, diskReadRate_none, diskWriteRate_none, cardUpdateValueRef]

theorem C5_disk_failure_isolation_witness :
    (onTimer exampleState { exampleInput with disk := none }).card_disk_read.value
      = 0 :=
  (C5_disk_failure_isolation exampleState { exampleInput with disk := none }
    { read_bytes := 7, write_bytes := 7 } rfl rfl).1

/-- C9: while paused, a timer tick performs no sampling and no metric,
chart or baseline update — the state is unchanged except that the elapsed
clock is restarted to the current instant — so the dt of the next
(resumed) tick is measured from the last discarded paused tick, never
accumulating across the paused span. -/
theorem C9_pause_no_accumulation (st : MonState) (inp : TickInput)
    (hp : st.paused = true) :
    onTimer st inp = { st with elapsedStart := inp.now } ∧
    (onTimer st inp).elapsedStart = inp.now ∧
    (onTimer st inp).card_cpu = st.card_cpu ∧
    (onTimer st inp).net_dyn_up = st.net_dyn_up ∧
    (onTimer st inp).last_net = st.last_net ∧
    (∀ now2 : ℕ, tickDtMs (onTimer st inp) now2 = max 1 (now2 - inp.now)) := by
  have h : onTimer st inp = { st with elapsedStart := inp.now } := by
    simp [onTimer, hp]
  refine ⟨h, ?_, ?_, ?_, ?_, ?_⟩
  · rw [h]
  · rw [h]
  · rw [h]
  · rw [h]
  · intro now2
    rw [h]
    rfl

theorem C9_pause_no_accumulation_witness :
    (onTimer { exampleState with paused := true } exampleInput).elapsedStart
      = exampleInput.now :=
  (C9_pause_no_accumulation { exampleState with paused := true }
    exampleInput rfl).2.1

theorem exp_neg_forty_small : Real.exp (-40) < 1 / 1000000 := by
  have h2 : (3 : ℝ) ≤ Real.exp 2 := by
    have := Real.add_one_le_exp 2
    linarith
  have h40 : (3 : ℝ) ^ 20 ≤ Real.exp 40 := by
    have hm : Real.exp (((20 : ℕ) : ℝ) * 2) = Real.exp 2 ^ 20 := Real.exp_nat_mul 2 20
    have h20 : ((20 : ℕ) : ℝ) * 2 = 40 := by norm_num
    rw [h20] at hm
    rw [hm]
    exact pow_le_pow_left₀ (by norm_num) h2 20
  have hpos : (0 : ℝ) < 3 ^ 20 := by positivity
  rw [Real.exp_neg]
  calc (Real.exp 40)⁻¹ ≤ ((3 : ℝ) ^ 20)⁻¹ := inv_anti₀ hpos h40
    _ < 1 / 1000000 := by norm_num

/-- C4 (counterexample): the decaying reference maxima are NOT kept at or
above the 1e-6 floor inside `on_timer` — one unpaused quiet tick after a
400-second gap drives `_net_dyn_up` from its initial 1.0 down to
`exp(-40)`, which is far below 1e-6. -/
theorem C4_floor_counterexample :
    (onTimer exampleState quietLongInput).net_dyn_up < 1 / 1000000 := by
  have hproj : (onTimer exampleState quietLongInput).net_dyn_up
      = max (byteRate 0 0 (tickDtSec exampleState quietLongInput.now) (1024 ^ 2))
          (1 * Real.exp (-(tickDtSec exampleState quietLongInput.now) / 10)) := by
    rw [onTimer_unpaused exampleState quietLongInput rfl]
    rfl
  have hdt : tickDtSec exampleState quietLongInput.now = 400 := by
    simp [tickDtSec, tickDtMs, quietLongInput, exampleState]
    norm_num
  have h0 : byteRate 0 0 (400 : ℝ) (1024 ^ 2) = 0 := by
    unfold byteRate
    norm_num
  rw [hproj, hdt, h0, one_mul]
  rw [max_eq_right (Real.exp_pos (-(400 : ℝ) / 10)).le]
  have harg : -(400 : ℝ) / 10 = -40 := by norm_num
  rw [harg]
  exact exp_neg_forty_small

/-- C4 (amended): the decaying reference maxima stay strictly positive on
every unpaused tick (the decay factor `exp(-dt/10)` is positive, so
`max(v, old * alpha) > 0` whenever the old value was), but they can fall
below 1e-6; the 1e-6 floor is applied at the consumption site instead —
`MetricCard.update_value` divides by `max(ref_max, 1e-6)`, which is always
at least 1e-6 and never zero, so the percentage conversion never divides
by zero. -/
theorem C4_amended_positive_floor (st : MonState) (inp : TickInput)
    (hp : st.paused = false)
    (h1 : 0 < st.net_dyn_up) (h2 : 0 < st.net_dyn_down)
    (h3 : 0 < st.disk_dyn_read) (h4 : 0 < st.disk_dyn_write) :
    (0 < (onTimer st inp).net_dyn_up ∧
     0 < (onTimer st inp).net_dyn_down ∧
     0 < (onTimer st inp).disk_dyn_read ∧
     0 < (onTimer st inp).disk_dyn_write) ∧
    (∀ ref_max : ℝ, 1 / 1000000 ≤ updateValueDivisor ref_max ∧
      updateValueDivisor ref_max ≠ 0) := by
  constructor
  · rw [onTimer_unpaused st inp hp]
    exact ⟨lt_max_of_lt_right (mul_pos h1 (Real.exp_pos _)),
      lt_max_of_lt_right (mul_pos h2 (Real.exp_pos _)),
      lt_max_of_lt_right (mul_pos h3 (Real.exp_pos _)),
      lt_max_of_lt_right (mul_pos h4 (Real.exp_pos _))⟩
  · intro ref_max
    refine ⟨le_max_right _ _, ?_⟩
    have hpos : (0 : ℝ) < updateValueDivisor ref_max :=
      lt_of_lt_of_le (by norm_num) (le_max_right _ _)
    exact ne_of_gt hpos

theorem C4_amended_positive_floor_witness :
    0 < (onTimer exampleState exampleInput).net_dyn_up :=
  ((C4_amended_positive_floor exampleState exampleInput rfl
    (by norm_num [exampleState]) (by norm_num [exampleState])
    (by norm_num [exampleState]) (by norm_num [exampleState])).1).1

/-- C6: `on_unit_changed` maps "MB/s" to the byte divisor 1,000,000 and
"MiB/s" to 1,048,576; an accepted unit change stores the mode and divisor
and resets all four decaying reference baselines to 1.0; a mode outside
the mapping returns without changing any state. -/
theorem C6_unit_changed (st : MonState) (mode : String) :
    unitMapping "MB/s" = some 1000000 ∧
    unitMapping "MiB/s" = some 1048576 ∧
    (∀ d : ℚ, unitMapping mode = some d →
      (onUnitChanged mode st).unit_mode = mode ∧
      (onUnitChanged mode st).bytes_per_unit = d ∧
      (onUnitChanged mode st).net_dyn_up = 1 ∧
      (onUnitChanged mode st).net_dyn_down = 1 ∧
      (onUnitChanged mode st).disk_dyn_read = 1 ∧
      (onUnitChanged mode st).disk_dyn_write = 1) ∧
    (unitMapping mode = none → onUnitChanged mode st = st) ∧
    (mode ≠ "MB/s" → mode ≠ "MiB/s" → onUnitChanged mode st = st) := by
  refine ⟨by norm_num [unitMapping], ?_, ?_, ?_, ?_⟩
  · unfold unitMapping
    rw [if_neg (by decide), if_pos rfl]
    norm_num
  · intro d hd
    unfold onUnitChanged
    rw [hd]
    exact ⟨rfl, rfl, rfl, rfl, rfl, rfl⟩
  · intro hnone
    unfold onUnitChanged
    rw [hnone]
  · intro hA hB
    have hnone : unitMapping mode = none := by
      simp [unitMapping, hA, hB]
    unfold onUnitChanged
    rw [hnone]

theorem C6_unit_changed_witness :
    (onUnitChanged "MB/s" exampleState).bytes_per_unit = 1000000 ∧
    onUnitChanged "KB/s" exampleState = exampleState :=
  ⟨((C6_unit_changed exampleState "MB/s").2.2.1 1000000
      (C6_unit_changed exampleState "MB/s").1).2.1,
    (C6_unit_changed exampleState "KB/s").2.2.2.2 (by decide) (by decide)⟩

/-! ## Helper lemmas: process bucketing -/

theorem getD_mem_or_default {α : Type} (l : List α) (i : ℕ) (d : α) :
    l.getD i d ∈ l ∨ l.getD i d = d := by
  by_cases h : i < l.length
  · left
    rw [List.getD_eq_getElem l d h]
    exact List.getElem_mem h
  · right
    exact List.getD_eq_default l d (le_of_not_lt h)

theorem setFold_mem (n : ℕ) (q : ProcRec) :
    ∀ (aff : List ℕ) (cps : List (List ProcRec)) (l : List ProcRec),
      l ∈ aff.foldl
        (fun cps core_id =>
          if core_id < n then cps.set core_id (cps.getD core_id [] ++ [q]) else cps)
        cps →
      ∀ p ∈ l, (∃ lw ∈ cps, p ∈ lw) ∨ p = q := by
  intro aff
  induction aff with
  | nil =>
      intro cps l hl p hp
      exact Or.inl ⟨l, hl, hp⟩
  | cons a as ih =>
      intro cps l hl p hp
      simp only [List.foldl_cons] at hl
      rcases ih _ l hl p hp with ⟨lw, hlw, hplw⟩ | heq
      · by_cases ha : a < n
        · rw [if_pos ha] at hlw
          rcases List.mem_or_eq_of_mem_set hlw with hmem | heq2
          · exact Or.inl ⟨lw, hmem, hplw⟩
          · subst heq2
            rcases List.mem_append.mp hplw with hmem | hq
            · rcases getD_mem_or_default cps a [] with hh | hh
              · exact Or.inl ⟨_, hh, hmem⟩
              · rw [hh] at hmem
                cases hmem
            · simp only [List.mem_singleton] at hq
              exact Or.inr hq
        · rw [if_neg ha] at hlw
          exact Or.inl ⟨lw, hlw, hplw⟩
      · exact Or.inr heq

theorem bucketAssign_mem (n : ℕ) (q : ProcRec) (cps : List (List ProcRec))
    (acp : List ProcRec) (p : ProcRec)
    (h : (∃ l ∈ (bucketAssign n q cps acp).1, p ∈ l) ∨
      p ∈ (bucketAssign n q cps acp).2) :
    ((∃ l ∈ cps, p ∈ l) ∨ p ∈ acp) ∨ p = q := by
  rcases haff : q.affinity with _ | aff
  · simp only [bucketAssign, haff] at h
    rcases h with ⟨l, hl, hpl⟩ | hp
    · exact Or.inl (Or.inl ⟨l, hl, hpl⟩)
    · rcases List.mem_append.mp hp with hmem | hq
      · exact Or.inl (Or.inr hmem)
      · simp only [List.mem_singleton] at hq
        exact Or.inr hq
  · simp only [bucketAssign, haff] at h
    by_cases hc : aff ≠ [] ∧ aff.length < n
    · rw [if_pos hc] at h
      rcases h with ⟨l, hl, hpl⟩ | hp
      · exact (setFold_mem n q aff cps l hl p hpl).imp (fun hh => Or.inl hh) id
      · exact Or.inl (Or.inr hp)
    · rw [if_neg hc] at h
      rcases h with ⟨l, hl, hpl⟩ | hp
      · exact Or.inl (Or.inl ⟨l, hl, hpl⟩)
      · rcases List.mem_append.mp hp with hmem | hq
        · exact Or.inl (Or.inr hmem)
        · simp only [List.mem_singleton] at hq
          exact Or.inr hq

theorem bucketOne_skip (n : ℕ) (fil : List Char) (b : Buckets) (p : ProcRec)
    (hskip : fil ≠ [] ∧ matchesFilter fil p = false) :
    (bucketOne n fil b p).core_processes = b.core_processes ∧
    (bucketOne n fil b p).all_cores_processes = b.all_cores_processes := by
  unfold bucketOne
  rw [if_pos hskip]
  exact ⟨rfl, rfl⟩

theorem bucketOne_pass (n : ℕ) (fil : List Char) (b : Buckets) (p : ProcRec)
    (hpass : ¬(fil ≠ [] ∧ matchesFilter fil p = false)) :
    (bucketOne n fil b p).core_processes
      = (bucketAssign n p b.core_processes b.all_cores_processes).1 ∧
    (bucketOne n fil b p).all_cores_processes
      = (bucketAssign n p b.core_processes b.all_cores_processes).2 := by
  unfold bucketOne
  rw [if_neg hpass]
  exact ⟨rfl, rfl⟩

theorem collectFold_filter (n : ℕ) (fil : List Char) (hfil : fil ≠ []) :
    ∀ (procs : List ProcRec) (b₁ b₂ : Buckets),
      b₁.core_processes = b₂.core_processes →
      b₁.all_cores_processes = b₂.all_cores_processes →
      (procs.foldl (bucketOne n fil) b₁).core_processes
        = ((procs.filter (fun p => matchesFilter fil p)).foldl
            (bucketOne n []) b₂).core_processes ∧
      (procs.foldl (bucketOne n fil) b₁).all_cores_processes
        = ((procs.filter (fun p => matchesFilter fil p)).foldl
            (bucketOne n []) b₂).all_cores_processes := by
  intro procs
  induction procs with
  | nil =>
      intro b₁ b₂ hc ha
      exact ⟨hc, ha⟩
  | cons p ps ih =>
      intro b₁ b₂ hc ha
      by_cases hm : matchesFilter fil p = true
      · rw [List.filter_cons_of_pos hm]
        simp only [List.foldl_cons]
        have h1 := bucketOne_pass n fil b₁ p (by simp [hm])
        have h2 := bucketOne_pass n [] b₂ p (by simp)
        exact ih _ _ (by rw [h1.1, h2.1, hc, ha]) (by rw [h1.2, h2.2, hc, ha])
      · have hm' : matchesFilter fil p = false := by
          cases hval : matchesFilter fil p
          · rfl
          · exact absurd hval hm
        rw [List.filter_cons_of_neg hm]
        simp only [List.foldl_cons]
        have h1 := bucketOne_skip n fil b₁ p ⟨hfil, hm'⟩
        exact ih _ _ (by rw [h1.1, hc]) (by rw [h1.2, ha])

theorem collectFold_members (n : ℕ) (fil : List Char) :
    ∀ (procs : List ProcRec) (b : Buckets) (p : ProcRec),
      ((∃ l ∈ (procs.foldl (bucketOne n fil) b).core_processes, p ∈ l) ∨
        p ∈ (procs.foldl (bucketOne n fil) b).all_cores_processes) →
      ((∃ l ∈ b.core_processes, p ∈ l) ∨ p ∈ b.all_cores_processes) ∨ p ∈ procs := by
  intro procs
  induction procs with
  | nil =>
      intro b p h
      exact Or.inl h
  | cons q qs ih =>
      intro b p h
      simp only [List.foldl_cons] at h
      rcases ih _ p h with hin | hmem
      · by_cases hcond : fil ≠ [] ∧ matchesFilter fil q = false
        · obtain ⟨hc, ha⟩ := bucketOne_skip n fil b q hcond
          rw [hc, ha] at hin
          exact Or.inl hin
        · obtain ⟨hc, ha⟩ := bucketOne_pass n fil b q hcond
          rw [hc, ha] at hin
          rcases bucketAssign_mem n q b.core_processes b.all_cores_processes p hin
            with hb | heq
          · exact Or.inl hb
          · exact Or.inr (by rw [heq]; exact List.mem_cons_self q qs)
      · exact Or.inr (List.mem_cons_of_mem q hmem)

/-- C7: the background collector never enters Collecting while already
Collecting — a collection request while collecting or after shutdown is a
no-op returning with the state (including the worker-submission count)
unchanged; two back-to-back requests submit at most one worker; the result
mailbox is single-slot (a completing collection overwrites any unconsumed
result); and `get_result` is non-blocking, returning and clearing the
pending result or returning `none` when nothing is pending. -/
theorem C7_collector_state_machine {R : Type} (c : ProcessCollector R) (r r2 : R) :
    (c.collecting = true → collect_async c = c) ∧
    (c.isShutdown = true → collect_async c = c) ∧
    ((shutdownCollector c).isShutdown = true ∧
      collect_async (shutdownCollector c) = shutdownCollector c) ∧
    (collect_async (collect_async c)).workerStarts ≤ c.workerStarts + 1 ∧
    (onCollectionComplete c r).mailbox = some r ∧
    (onCollectionComplete c r).collecting = false ∧
    (onCollectionComplete (onCollectionComplete c r) r2).mailbox = some r2 ∧
    (get_result c).1 = c.mailbox ∧
    (get_result c).2.mailbox = none ∧
    (c.mailbox = none → get_result c = (none, c)) ∧
    get_result (onCollectionComplete c r)
      = (some r, { onCollectionComplete c r with mailbox := none }) := by
  refine ⟨?_, ?_, ⟨rfl, ?_⟩, ?_, rfl, rfl, rfl, rfl, rfl, ?_, rfl⟩
  · intro h
    simp [collect_async, h]
  · intro h
    simp [collect_async, h]
  · simp [collect_async, shutdownCollector]
  · unfold collect_async
    by_cases h : (c.isShutdown || c.collecting) = true
    · simp [h]
    · simp [h]
  · intro h
    cases c
    simp_all [get_result]

theorem C7_collector_state_machine_witness :
    collect_async (ProcessCollector.mk true false (none : Option ℕ) 0)
      = ProcessCollector.mk true false (none : Option ℕ) 0 :=
  (C7_collector_state_machine (ProcessCollector.mk true false (none : Option ℕ) 0)
    0 0).1 rfl

/-- C8: with a nonempty (already lowercased) search filter, the
case-insensitive substring filter is checked against both the lowercased
process name and the PID rendered in decimal, it is applied before
core-affinity bucketing (the buckets equal those obtained from bucketing
the pre-filtered process list), and every non-matching process is absent
from every bucket of the results. -/
theorem C8_filter_before_bucketing (n_cores : ℕ) (fil : List Char)
    (procs : List ProcRec) (hfil : fil ≠ []) :
    ((collectBuckets n_cores fil procs).core_processes
      = (collectBuckets n_cores []
          (procs.filter (fun p => matchesFilter fil p))).core_processes ∧
     (collectBuckets n_cores fil procs).all_cores_processes
      = (collectBuckets n_cores []
          (procs.filter (fun p => matchesFilter fil p))).all_cores_processes) ∧
    (∀ l ∈ (collectBuckets n_cores fil procs).core_processes, ∀ p ∈ l,
      fil <:+: List.map Char.toLower p.name ∨ fil <:+: Nat.toDigits 10 p.pid) ∧
    (∀ p ∈ (collectBuckets n_cores fil procs).all_cores_processes,
      fil <:+: List.map Char.toLower p.name ∨ fil <:+: Nat.toDigits 10 p.pid) := by
  obtain ⟨hcore, hall⟩ := collectFold_filter n_cores fil hfil procs
    { core_processes := List.replicate n_cores []
      all_cores_processes := []
      proc_count := 0
      total_threads := 0 }
    { core_processes := List.replicate n_cores []
      all_cores_processes := []
      proc_count := 0
      total_threads := 0 } rfl rfl
  have hinit : ∀ p : ProcRec,
      ((∃ l ∈ List.replicate n_cores ([] : List ProcRec), p ∈ l) ∨
        p ∈ ([] : List ProcRec)) → False := by
    intro p h
    rcases h with ⟨l, hl, hpl⟩ | hp
    · rw [List.eq_of_mem_replicate hl] at hpl
      cases hpl
    · cases hp
  have hfiltered : ∀ p : ProcRec,
      p ∈ procs.filter (fun p => matchesFilter fil p) →
      fil <:+: List.map Char.toLower p.name ∨ fil <:+: Nat.toDigits 10 p.pid := by
    intro p hp
    have hm := (List.mem_filter.mp hp).2
    simpa [matchesFilter] using hm
  refine ⟨⟨hcore, hall⟩, ?_, ?_⟩
  · intro l hl p hp
    unfold collectBuckets at hl
    rw [hcore] at hl
    rcases collectFold_members n_cores []
        (procs.filter (fun p => matchesFilter fil p))
        { core_processes := List.replicate n_cores []
          all_cores_processes := []
          proc_count := 0
          total_threads := 0 } p (Or.inl ⟨l, hl, hp⟩) with hbad | hgood
    · exact absurd hbad (hinit p)
    · exact hfiltered p hgood
  · intro p hp
    unfold collectBuckets at hp
    rw [hall] at hp
    rcases collectFold_members n_cores []
        (procs.filter (fun p => matchesFilter fil p))
        { core_processes := List.replicate n_cores []
          all_cores_processes := []
          proc_count := 0
          total_threads := 0 } p (Or.inr hp) with hbad | hgood
    · exact absurd hbad (hinit p)
    · exact hfiltered p hgood

theorem C8_filter_before_bucketing_witness :
    (collectBuckets 2 [ 'p' ]
      [{ pid := 1234, name := [ 'p', 'y' ], cpu := 0, mem := 0, threads := 1,
          affinity := none, cpuPrimed := false }]).all_cores_processes
      = (collectBuckets 2 []
          ([{ pid := 1234, name := [ 'p', 'y' ], cpu := 0, mem := 0, threads := 1,
              affinity := none, cpuPrimed := false }].filter
            (fun p => matchesFilter [ 'p' ] p))).all_cores_processes :=
  ((C8_filter_before_bucketing 2 [ 'p' ]
    [{ pid := 1234, name := [ 'p', 'y' ], cpu := 0, mem := 0, threads := 1,
        affinity := none, cpuPrimed := false }] (by decide)).1).2

/-- C10: the first `refresh_processes` call after construction (priming
flag unset) only primes the per-process CPU counters and sets the flag:
the returned monitor state differs from the old one in the flag alone —
in particular the process tree and summary labels are untouched — while
every live process has had `cpu_percent(None)` called on it; the tree is
built (from the collection loop) only from the second call onward. -/
theorem C10_first_refresh_primes_only (st : ProcUIState) (fil : List Char)
    (n_cores : ℕ) (procs : List ProcRec) (h : st.procsPrimed = false) :
    refreshProcesses st fil n_cores procs
      = ({ st with procsPrimed := true },
          procs.map (fun p => { p with cpuPrimed := true })) ∧
    (refreshProcesses st fil n_cores procs).1.tree = st.tree ∧
    (refreshProcesses st fil n_cores procs).1.summary = st.summary ∧
    (refreshProcesses st fil n_cores procs).1.procsPrimed = true ∧
    (refreshProcesses (refreshProcesses st fil n_cores procs).1 fil n_cores procs).1.tree
      = (collectBuckets n_cores fil procs).core_processes.map
          (fun l => (sortByCpuDesc l).take 10) := by
  have h1 : refreshProcesses st fil n_cores procs
      = ({ st with procsPrimed := true },
          procs.map (fun p => { p with cpuPrimed := true })) := by
    unfold refreshProcesses
    rw [if_pos h]
  refine ⟨h1, ?_, ?_, ?_, ?_⟩
  · rw [h1]
  · rw [h1]
  · rw [h1]
  · rw [h1]
    unfold refreshProcesses
    rw [if_neg (by simp)]

theorem C10_first_refresh_primes_only_witness :
    (refreshProcesses { procsPrimed := false, tree := [], summary := (0, 0) }
        [] 4 []).1.procsPrimed = true :=
  (C10_first_refresh_primes_only
    { procsPrimed := false, tree := [], summary := (0, 0) } [] 4 [] rfl).2.2.2.1
